import Mathlib

/-!
Verification of `src/Tools/build_hanja_db.py` (NRIME hanja database builder).

The script has two components:
* `parse_hanja_line` (lines 28-45): parses one line of the dictionary text
  `hangul:hanja:meaning` into an entry or rejects it (`None`).
* `build_database` (lines 47-88): deletes any existing database file at the
  output path, creates the schema (table `hanja` and index `idx_hanja_hangul`),
  then inserts one record per accepted line with `frequency` fixed to 0.

The embedding below models Python strings as Lean `String` (a wrapper around
`List Char`), `str.strip` as removal of leading and trailing whitespace
characters, and `str.split` on a colon as colon-splitting that preserves
empty fields.  The SQLite table is modelled as a list of records whose `id`
follows insertion order starting at 1 (`INTEGER PRIMARY KEY AUTOINCREMENT`),
and the filesystem state at the output path as an `Option` of such a list.
-/

/-- The ASCII whitespace characters stripped by Python `str.strip`
(space, tab, newline, carriage return, vertical tab, form feed). -/
def pyIsSpace (c : Char) : Bool :=
  c = ' ' || c = '\t' || c = '\n' || c = '\r' || c = '\x0b' || c = '\x0c'

/-- Remove the leading whitespace run of a character list. -/
def stripLeft (l : List Char) : List Char :=
  l.dropWhile pyIsSpace

/-- Remove the trailing whitespace run of a character list. -/
def stripRight (l : List Char) : List Char :=
  (l.reverse.dropWhile pyIsSpace).reverse

/-- Python `str.strip` on the underlying character list: remove the leading
and trailing whitespace runs. -/
def pyStripList (l : List Char) : List Char :=
  stripRight (stripLeft l)

/-- Python `str.strip` (source line 30 and lines 38-40). -/
def pyStrip (s : String) : String :=
  ⟨pyStripList s.data⟩

/-- Python `str.split` on a colon, over the underlying character list: split
at every colon, preserving empty fields; splitting the empty string yields
`[[]]`, matching the Python behaviour of producing one empty field. -/
def splitOnColonList : List Char → List (List Char)
  | [] => [[]]
  | c :: cs =>
    if c = ':' then [] :: splitOnColonList cs
    else
      match splitOnColonList cs with
      | [] => [[c]]
      | f :: fs => (c :: f) :: fs

/-- The colon-delimited fields of a line after stripping it, as in source
line 34 (the split applied to the stripped line). -/
def lineFields (line : String) : List (List Char) :=
  splitOnColonList (pyStripList line.data)

/-- Parser `parse_hanja_line` (source lines 28-45).  Strip the line; reject
empty lines and comment lines starting with `#`; split on the colon; reject
lines with fewer than 3 fields; strip fields 0, 1, 2; reject if the stripped
hangul or hanja is empty; otherwise return `(hangul, hanja, meaning)`. -/
def parse_hanja_line (line : String) : Option (String × String × String) :=
  let s : String := pyStrip line
  if s.data = [] ∨ s.data.head? = some '#' then none
  else
    let parts : List String := (splitOnColonList s.data).map fun l => (⟨l⟩ : String)
    if parts.length < 3 then none
    else
      let hangul := pyStrip (parts.getD 0 "")
      let hanja := pyStrip (parts.getD 1 "")
      let meaning := pyStrip (parts.getD 2 "")
      if hangul = "" ∨ hanja = "" then none
      else some (hangul, hanja, meaning)

/-- A row of the `hanja` table (source lines 57-65): `id INTEGER PRIMARY KEY
AUTOINCREMENT, hangul TEXT NOT NULL, hanja TEXT NOT NULL, meaning TEXT
DEFAULT '', frequency INTEGER DEFAULT 0`. -/
structure HanjaRecord where
  id : Nat
  hangul : String
  hanja : String
  meaning : String
  frequency : Int
deriving DecidableEq, Repr

/-- The entries accepted by the parser over the input lines, in input order
(the loop filter of source lines 73-75). -/
def acceptedEntries (lines : List String) : List (String × String × String) :=
  lines.filterMap parse_hanja_line

/-- The insertion loop of source lines 71-80: one record per accepted entry,
in input order.  The first argument is the running `count`; `id` follows
insertion order starting at 1 (SQLite `AUTOINCREMENT`), and `frequency` is
the literal 0 of the `INSERT` statement on line 77. -/
def insertLoop : Nat → List (String × String × String) → List HanjaRecord
  | _, [] => []
  | count, e :: es =>
    { id := count + 1, hangul := e.1, hanja := e.2.1, meaning := e.2.2, frequency := 0 }
      :: insertLoop (count + 1) es

/-- The records inserted by one build over the given input lines. -/
def buildRecords (lines : List String) : List HanjaRecord :=
  insertLoop 0 (acceptedEntries lines)

/-- Outcome of trying to read the input source (source line 72, the
UTF-8 text open and the subsequent iteration): either the decoded lines, or
an I/O or decoding error. -/
inductive ReadResult where
  | ok (lines : List String)
  | readError
deriving DecidableEq

/-- One run of `build_database` (source lines 47-88) as a state transformer
on the filesystem slot at the output path.

`pre` is the artifact present at the output path before the run, `input` the
readability of the input source.  The run first deletes any existing artifact
(lines 50-51), then the connect call plus the two DDL statements (lines
53-68) materialize an artifact holding the schema and index but no records;
only then is the input opened (line 72).  Hence on a read error the run
aborts (second component `none`, no count reported) but the freshly created
empty artifact remains at the output path; on success the artifact holds
exactly the built records and the reported count is their number (lines
80-87). -/
def build_database (input : ReadResult) (pre : Option (List HanjaRecord)) :
    Option (List HanjaRecord) × Option Nat :=
  match input, pre with
  | ReadResult.readError, _ => (some [], none)
  | ReadResult.ok lines, _ => (some (buildRecords lines), some (buildRecords lines).length)

/-- Lookup through the `idx_hanja_hangul` index (source line 68): all records
whose `hangul` column equals the key, in table order. -/
def lookupHangul (db : List HanjaRecord) (key : String) : List HanjaRecord :=
  db.filter fun r => r.hangul = key

/-! ### Helper lemmas on stripping -/

lemma dropWhile_dropWhile (p : Char → Bool) (l : List Char) :
    (l.dropWhile p).dropWhile p = l.dropWhile p := by
  induction l with
  | nil => rfl
  | cons c cs ih =>
    by_cases h : p c
    · simp [List.dropWhile_cons, h, ih]
    · simp [List.dropWhile_cons, h]

lemma stripLeft_nil : stripLeft [] = [] := rfl

lemma stripLeft_cons (c : Char) (cs : List Char) :
    stripLeft (c :: cs) = if pyIsSpace c then stripLeft cs else c :: cs := by
  by_cases hc : pyIsSpace c <;> simp [stripLeft, List.dropWhile_cons, hc]

lemma stripLeft_idem (l : List Char) : stripLeft (stripLeft l) = stripLeft l :=
  dropWhile_dropWhile pyIsSpace l

lemma stripRight_idem (l : List Char) : stripRight (stripRight l) = stripRight l := by
  unfold stripRight
  rw [List.reverse_reverse, dropWhile_dropWhile]

lemma stripRight_cons (c : Char) (cs : List Char) :
    stripRight (c :: cs) =
      if stripRight cs = [] then (if pyIsSpace c then [] else [c])
      else c :: stripRight cs := by
  unfold stripRight
  rw [List.reverse_cons, List.dropWhile_append]
  by_cases h0 : cs.reverse.dropWhile pyIsSpace = []
  · simp only [h0, List.isEmpty_nil, if_true, List.reverse_eq_nil_iff.mpr rfl]
    by_cases hc : pyIsSpace c
    · simp [List.dropWhile_cons, hc]
    · simp [List.dropWhile_cons, hc]
  · have h1 : (cs.reverse.dropWhile pyIsSpace).isEmpty = false := by
      simpa [List.isEmpty_iff] using h0
    have h2 : ¬ ((cs.reverse.dropWhile pyIsSpace).reverse = []) := by
      simpa using h0
    simp [h1, h2, List.reverse_append]

lemma stripLeft_stripRight_comm (l : List Char) :
    stripLeft (stripRight l) = stripRight (stripLeft l) := by
  induction l with
  | nil => rfl
  | cons c cs ih =>
    have h00 : stripRight cs = [] → stripRight (stripLeft cs) = [] := by
      intro h; rw [← ih, h]; rfl
    by_cases hc : pyIsSpace c
    · by_cases h0 : stripRight cs = []
      · simp only [stripRight_cons, stripLeft_cons, hc, h0, if_true, stripLeft_nil,
          h00 h0, if_false]
      · simp only [stripRight_cons, stripLeft_cons, hc, h0, if_true, if_false]
        exact ih
    · by_cases h0 : stripRight cs = []
      · simp only [stripRight_cons, stripLeft_cons, hc, h0, if_true, if_false,
          Bool.false_eq_true, h00 h0]
      · simp only [stripRight_cons, stripLeft_cons, hc, h0, if_true, if_false,
          Bool.false_eq_true]

lemma pyStripList_idem (l : List Char) : pyStripList (pyStripList l) = pyStripList l := by
  unfold pyStripList
  rw [stripLeft_stripRight_comm, stripLeft_idem, stripRight_idem]

lemma stripLeft_append (u v : List Char) (hu : stripLeft u ≠ []) :
    stripLeft (u ++ v) = stripLeft u ++ v := by
  induction u with
  | nil => exact absurd rfl hu
  | cons c cs ih =>
    by_cases hc : pyIsSpace c
    · have hcs : stripLeft cs ≠ [] := by
        simpa [stripLeft_cons, hc] using hu
      simp [stripLeft_cons, hc, ih hcs]
    · simp [stripLeft_cons, hc]

lemma stripRight_append (u : List Char) (x : Char) (v : List Char)
    (hx : ¬ pyIsSpace x) :
    stripRight (u ++ x :: v) = u ++ x :: stripRight v := by
  induction u with
  | nil =>
    rw [List.nil_append, stripRight_cons]
    by_cases h0 : stripRight v = [] <;> simp [h0, hx]
  | cons c cs ih =>
    rw [List.cons_append, stripRight_cons, ih]
    have hne : cs ++ x :: stripRight v ≠ [] := by simp
    simp [hne]

/-! ### Helper lemmas on colon splitting -/

lemma splitOnColonList_ne_nil (l : List Char) : splitOnColonList l ≠ [] := by
  cases l with
  | nil => simp [splitOnColonList]
  | cons c cs =>
    by_cases hc : c = ':'
    · simp [splitOnColonList, hc]
    · simp only [splitOnColonList, if_neg hc]
      cases splitOnColonList cs <;> simp

lemma splitOnColonList_cons_ne (c : Char) (cs : List Char) (hc : ¬ c = ':') :
    splitOnColonList (c :: cs) =
      (c :: (splitOnColonList cs).headI) :: (splitOnColonList cs).tail := by
  simp only [splitOnColonList, if_neg hc]
  rcases h : splitOnColonList cs with _ | ⟨f, fs⟩
  · exact absurd h (splitOnColonList_ne_nil cs)
  · simp

lemma splitOnColonList_cons_colon (cs : List Char) :
    splitOnColonList (':' :: cs) = [] :: splitOnColonList cs := by
  simp [splitOnColonList]

lemma splitOnColonList_no_colon (l : List Char) (h : ':' ∉ l) :
    splitOnColonList l = [l] := by
  induction l with
  | nil => rfl
  | cons c cs ih =>
    have hc : ¬ (c = ':') := fun e => h (e ▸ List.mem_cons_self c cs)
    have hcs : ':' ∉ cs := fun m => h (List.mem_cons_of_mem c m)
    rw [splitOnColonList_cons_ne c cs hc, ih hcs]
    simp

lemma splitOnColonList_append (u v : List Char) (h : ':' ∉ u) :
    splitOnColonList (u ++ ':' :: v) = u :: splitOnColonList v := by
  induction u with
  | nil => simp [splitOnColonList_cons_colon]
  | cons c cs ih =>
    have hc : ¬ (c = ':') := fun e => h (e ▸ List.mem_cons_self c cs)
    have hcs : ':' ∉ cs := fun m => h (List.mem_cons_of_mem c m)
    rw [List.cons_append, splitOnColonList_cons_ne c _ hc, ih hcs]
    simp

lemma mem_of_mem_stripRight {a : Char} {l : List Char} (h : a ∈ stripRight l) : a ∈ l := by
  unfold stripRight at h
  rw [List.mem_reverse] at h
  have := (List.dropWhile_sublist (l := l.reverse) pyIsSpace).subset h
  simpa using this

lemma mem_of_mem_stripLeft {a : Char} {l : List Char} (h : a ∈ stripLeft l) : a ∈ l :=
  (List.dropWhile_sublist pyIsSpace).subset h

lemma mem_of_mem_pyStripList {a : Char} {l : List Char} (h : a ∈ pyStripList l) : a ∈ l :=
  mem_of_mem_stripLeft (mem_of_mem_stripRight h)

lemma stripRight_head (c : Char) (cs : List Char) :
    stripRight (c :: cs) = [] ∨ ∃ t, stripRight (c :: cs) = c :: t := by
  rw [stripRight_cons]
  by_cases h0 : stripRight cs = []
  · by_cases hc : pyIsSpace c
    · left; simp [h0, hc]
    · right; exact ⟨[], by simp [h0, hc]⟩
  · right; exact ⟨stripRight cs, by simp [h0]⟩

lemma no_colon_of_mem_splitOnColonList {seg : List Char} {l : List Char}
    (h : seg ∈ splitOnColonList l) : ':' ∉ seg := by
  induction l generalizing seg with
  | nil =>
    simp only [splitOnColonList, List.mem_singleton] at h
    subst h; simp
  | cons c cs ih =>
    by_cases hc : c = ':'
    · subst hc
      rw [splitOnColonList_cons_colon, List.mem_cons] at h
      rcases h with h | h
      · subst h; simp
      · exact ih h
    · rw [splitOnColonList_cons_ne c cs hc, List.mem_cons] at h
      have hhead : (splitOnColonList cs).headI ∈ splitOnColonList cs := by
        rcases hrest : splitOnColonList cs with _ | ⟨f, fs⟩
        · exact absurd hrest (splitOnColonList_ne_nil cs)
        · simp
      rcases h with h | h
      · subst h
        intro hm
        rcases List.mem_cons.mp hm with h1 | h1
        · exact hc h1.symm
        · exact ih hhead h1
      · exact ih (List.mem_of_mem_tail h)

/-! ### Helper lemmas on the parser -/

lemma data_append (s t : String) : (s ++ t).data = s.data ++ t.data := by
  cases s; cases t; rfl

lemma pyStrip_mk (l : List Char) : pyStrip (⟨l⟩ : String) = ⟨pyStripList l⟩ := rfl

lemma getD_map_mk (l : List (List Char)) (i : Nat) :
    ((l.map fun x => (⟨x⟩ : String)).getD i "") = ⟨l.getD i []⟩ := by
  induction l generalizing i with
  | nil => cases i <;> rfl
  | cons x xs ih =>
    cases i with
    | zero => rfl
    | succ n =>
      simp only [List.map_cons, List.getD_cons_succ]
      exact ih n

lemma getD_mem_of_lt (l : List (List Char)) (i : Nat) (d : List Char)
    (h : i < l.length) : l.getD i d ∈ l := by
  induction l generalizing i with
  | nil => simp at h
  | cons x xs ih =>
    cases i with
    | zero => simp [List.getD_cons_zero]
    | succ n =>
      rw [List.getD_cons_succ]
      exact List.mem_cons_of_mem _ (ih n (by simpa using h))

/-- Shape of any successful parse: at least three fields, each output
obtained by stripping the corresponding field, hangul and hanja nonempty. -/
lemma parse_some_shape {line h j m : String}
    (hp : parse_hanja_line line = some (h, j, m)) :
    3 ≤ (lineFields line).length ∧
    h = ⟨pyStripList ((lineFields line).getD 0 [])⟩ ∧
    j = ⟨pyStripList ((lineFields line).getD 1 [])⟩ ∧
    m = ⟨pyStripList ((lineFields line).getD 2 [])⟩ ∧
    ¬ h = "" ∧ ¬ j = "" := by
  have hfields : lineFields line = splitOnColonList (pyStrip line).data := rfl
  simp only [parse_hanja_line] at hp
  by_cases h1 : (pyStrip line).data = [] ∨ (pyStrip line).data.head? = some '#'
  · rw [if_pos h1] at hp; exact absurd hp (by simp)
  rw [if_neg h1] at hp
  by_cases h2 :
      ((splitOnColonList (pyStrip line).data).map fun l => (⟨l⟩ : String)).length < 3
  · rw [if_pos h2] at hp; exact absurd hp (by simp)
  rw [if_neg h2] at hp
  by_cases h3 :
      pyStrip (((splitOnColonList (pyStrip line).data).map fun l => (⟨l⟩ : String)).getD 0 "") = ""
      ∨ pyStrip (((splitOnColonList (pyStrip line).data).map fun l => (⟨l⟩ : String)).getD 1 "") = ""
  · rw [if_pos h3] at hp; exact absurd hp (by simp)
  rw [if_neg h3] at hp
  rw [Option.some.injEq] at hp
  have hlen : 3 ≤ (lineFields line).length := by
    rw [hfields]
    simpa using Nat.le_of_not_lt h2
  push_neg at h3
  obtain ⟨h3a, h3b⟩ := h3
  rw [getD_map_mk, pyStrip_mk] at h3a
  rw [getD_map_mk, pyStrip_mk] at h3b
  rw [getD_map_mk, getD_map_mk, getD_map_mk, pyStrip_mk, pyStrip_mk, pyStrip_mk] at hp
  have e1 := congrArg Prod.fst hp
  have e2 := congrArg (fun t : String × String × String => t.2.1) hp
  have e3 := congrArg (fun t : String × String × String => t.2.2) hp
  exact ⟨hlen, e1.symm, e2.symm, e3.symm, fun e => h3a (e1.trans e), fun e => h3b (e2.trans e)⟩

/-- A line of the shape `A:B:C` with colon-free fields, nonempty stripped
`A` and `B`, and `A` not stripping to a comment, parses to the stripped
fields. -/
lemma parse_concat_valid (a b c : String)
    (ha : ':' ∉ a.data) (hb : ':' ∉ b.data) (hc : ':' ∉ c.data)
    (ha2 : ¬ pyStrip a = "") (hb2 : ¬ pyStrip b = "")
    (hcm : ¬ (pyStrip a).data.head? = some '#') :
    parse_hanja_line (a ++ ":" ++ b ++ ":" ++ c) =
      some (pyStrip a, pyStrip b, pyStrip c) := by
  have hA : pyStripList a.data ≠ [] := fun e => ha2 (String.ext e)
  have hL : stripLeft a.data ≠ [] := by
    intro e
    apply hA
    unfold pyStripList
    rw [e]
    rfl
  have hdata : (a ++ ":" ++ b ++ ":" ++ c).data =
      a.data ++ ':' :: (b.data ++ ':' :: c.data) := by
    have hcolon : (":" : String).data = [':'] := rfl
    simp [data_append, hcolon, List.append_assoc]
  have hcolonspace : ¬ pyIsSpace ':' := by decide
  have hS : (pyStrip (a ++ ":" ++ b ++ ":" ++ c)).data =
      stripLeft a.data ++ ':' :: (b.data ++ ':' :: stripRight c.data) := by
    show pyStripList (a ++ ":" ++ b ++ ":" ++ c).data = _
    rw [hdata]
    unfold pyStripList
    rw [stripLeft_append _ _ hL, stripRight_append _ _ _ hcolonspace,
      stripRight_append _ _ _ hcolonspace]
  have hnA : ':' ∉ stripLeft a.data := fun m => ha (mem_of_mem_stripLeft m)
  have hnC : ':' ∉ stripRight c.data := fun m => hc (mem_of_mem_stripRight m)
  have hfields : splitOnColonList
      (stripLeft a.data ++ ':' :: (b.data ++ ':' :: stripRight c.data)) =
      [stripLeft a.data, b.data, stripRight c.data] := by
    rw [splitOnColonList_append _ _ hnA, splitOnColonList_append _ _ hb,
      splitOnColonList_no_colon _ hnC]
  rcases hDS : stripLeft a.data with _ | ⟨d, arest⟩
  · exact absurd hDS hL
  have hdhash : ¬ d = '#' := by
    intro e
    apply hcm
    show (pyStripList a.data).head? = some '#'
    unfold pyStripList
    rw [hDS]
    rcases stripRight_head d arest with h0 | ⟨t, ht⟩
    · rw [← hDS] at h0
      exact absurd h0 hA
    · rw [ht, e]; rfl
  have hcond1 : ¬ (stripLeft a.data ++ ':' :: (b.data ++ ':' :: stripRight c.data) = [] ∨
      (stripLeft a.data ++ ':' :: (b.data ++ ':' :: stripRight c.data)).head? = some '#') := by
    rw [hDS, List.cons_append]
    rintro (h1 | h1)
    · exact List.cons_ne_nil _ _ h1
    · rw [List.head?_cons, Option.some.injEq] at h1
      exact hdhash h1
  have e0 : pyStrip (⟨stripLeft a.data⟩ : String) = pyStrip a := by
    apply String.ext
    show pyStripList (stripLeft a.data) = pyStripList a.data
    unfold pyStripList
    rw [stripLeft_idem]
  have e1 : pyStrip (⟨b.data⟩ : String) = pyStrip b := rfl
  have e2 : pyStrip (⟨stripRight c.data⟩ : String) = pyStrip c := by
    apply String.ext
    show pyStripList (stripRight c.data) = pyStripList c.data
    unfold pyStripList
    rw [stripLeft_stripRight_comm, stripRight_idem]
  simp only [parse_hanja_line, hS, hfields]
  rw [if_neg hcond1]
  simp only [List.map_cons, List.map_nil, List.length_cons, List.length_nil]
  rw [if_neg (by decide)]
  simp only [List.getD_cons_zero, List.getD_cons_succ]
  rw [e0, e1, e2]
  rw [if_neg (fun hor => hor.elim ha2 hb2)]

/-- Any successful parse yields colon-free, fully stripped fields, with
hangul and hanja nonempty. -/
lemma parse_some_clean {line h j m : String}
    (hp : parse_hanja_line line = some (h, j, m)) :
    (':' ∉ h.data ∧ pyStrip h = h ∧ ¬ h = "") ∧
    (':' ∉ j.data ∧ pyStrip j = j ∧ ¬ j = "") ∧
    (':' ∉ m.data ∧ pyStrip m = m) := by
  obtain ⟨hlen, eh, ej, em, hne1, hne2⟩ := parse_some_shape hp
  have hclean : ∀ i, i < 3 →
      ':' ∉ pyStripList ((lineFields line).getD i []) := by
    intro i hi hmem
    have hfield : (lineFields line).getD i [] ∈ lineFields line :=
      getD_mem_of_lt _ i [] (lt_of_lt_of_le hi hlen)
    exact no_colon_of_mem_splitOnColonList hfield (mem_of_mem_pyStripList hmem)
  have hstrip : ∀ i, pyStrip (⟨pyStripList ((lineFields line).getD i [])⟩ : String) =
      ⟨pyStripList ((lineFields line).getD i [])⟩ := by
    intro i
    rw [pyStrip_mk]
    exact congrArg String.mk (pyStripList_idem _)
  refine ⟨⟨?_, ?_, hne1⟩, ⟨?_, ?_, hne2⟩, ?_, ?_⟩
  · rw [eh]; exact hclean 0 (by decide)
  · rw [eh]; exact hstrip 0
  · rw [ej]; exact hclean 1 (by decide)
  · rw [ej]; exact hstrip 1
  · rw [em]; exact hclean 2 (by decide)
  · rw [em]; exact hstrip 2

/-! ### Helper lemmas on the build loop -/

lemma insertLoop_length (n : Nat) (es : List (String × String × String)) :
    (insertLoop n es).length = es.length := by
  induction es generalizing n with
  | nil => rfl
  | cons e es ih => simp [insertLoop, ih]

lemma mem_insertLoop {r : HanjaRecord} {n : Nat}
    {es : List (String × String × String)} (h : r ∈ insertLoop n es) :
    r.frequency = 0 ∧ ∃ e ∈ es, r.hangul = e.1 ∧ r.hanja = e.2.1 ∧ r.meaning = e.2.2 := by
  induction es generalizing n with
  | nil => simp [insertLoop] at h
  | cons e es ih =>
    rw [insertLoop, List.mem_cons] at h
    rcases h with h | h
    · subst h
      exact ⟨rfl, e, List.mem_cons_self e es, rfl, rfl, rfl⟩
    · obtain ⟨hf, e2, hmem, he⟩ := ih h
      exact ⟨hf, e2, List.mem_cons_of_mem e hmem, he⟩

lemma mem_buildRecords {r : HanjaRecord} {lines : List String}
    (h : r ∈ buildRecords lines) :
    r.frequency = 0 ∧ ∃ line ∈ lines,
      parse_hanja_line line = some (r.hangul, r.hanja, r.meaning) := by
  obtain ⟨hf, e, hmem, h1, h2, h3⟩ := mem_insertLoop h
  obtain ⟨line, hline, hparse⟩ := List.mem_filterMap.mp hmem
  refine ⟨hf, line, hline, ?_⟩
  rw [hparse, h1, h2, h3]

/-! ### Claims -/

/-- C1 (corrected): the claim as stated fails on comment lines.  The input
`"#a:b:c"` has the shape `A:B:C` with `A = "#a"`, `B = "b"`, `C = "c"`, none
containing a colon and `trim A`, `trim B` nonempty, yet `parse_hanja_line`
returns `none` (the stripped line starts with `#`), not the entry
`("#a", "b", "c")` demanded by the claim. -/
theorem parse_wellformed_comment_counterexample :
    pyStrip "#a" = "#a" ∧ ¬ ("#a" : String) = "" ∧ ¬ ("b" : String) = "" ∧
    parse_hanja_line "#a:b:c" = none ∧
    ¬ parse_hanja_line "#a:b:c" = some ("#a", "b", "c") := by
  refine ⟨rfl, by decide, by decide, by decide, by decide⟩

/-- C1 (amended): for every input line of the form `A:B:C` (three
colon-delimited fields, none containing a colon) where `A` and `B` are
nonempty after trimming whitespace and trimmed `A` does not start with the
comment marker `#`, `parse_hanja_line` returns the entry
`(trim A, trim B, trim C)`. -/
theorem parse_wellformed_line_valid (a b c : String)
    (ha : ':' ∉ a.data) (hb : ':' ∉ b.data) (hc : ':' ∉ c.data)
    (ha2 : ¬ pyStrip a = "") (hb2 : ¬ pyStrip b = "")
    (hcm : ¬ (pyStrip a).data.head? = some '#') :
    parse_hanja_line (a ++ ":" ++ b ++ ":" ++ c) =
      some (pyStrip a, pyStrip b, pyStrip c) :=
  parse_concat_valid a b c ha hb hc ha2 hb2 hcm

/-- Witness for C1 at the concrete line `" 가 :暇: x "`. -/
theorem parse_wellformed_line_valid_witness :
    (':' ∉ (" 가 " : String).data) ∧ (':' ∉ ("暇" : String).data) ∧
    (':' ∉ (" x " : String).data) ∧ ¬ pyStrip " 가 " = "" ∧ ¬ pyStrip "暇" = "" ∧
    ¬ (pyStrip " 가 ").data.head? = some '#' ∧
    parse_hanja_line (" 가 " ++ ":" ++ "暇" ++ ":" ++ " x ") =
      some (pyStrip " 가 ", pyStrip "暇", pyStrip " x ") :=
  ⟨by decide, by decide, by decide, by decide, by decide, by decide,
    parse_wellformed_line_valid " 가 " "暇" " x " (by decide) (by decide)
      (by decide) (by decide) (by decide) (by decide)⟩

/-- C2 (confirmed): the six inputs `""`, `"   "`, `"# comment"`,
`"onlytwo:fields"`, `":hanja:meaning"` and `"hangul::meaning"` are all
rejected by `parse_hanja_line`. -/
theorem parse_rejection_cases :
    parse_hanja_line "" = none ∧
    parse_hanja_line "   " = none ∧
    parse_hanja_line "# comment" = none ∧
    parse_hanja_line "onlytwo:fields" = none ∧
    parse_hanja_line ":hanja:meaning" = none ∧
    parse_hanja_line "hangul::meaning" = none := by
  refine ⟨by decide, by decide, by decide, by decide, by decide, by decide⟩

/-- C3 (corrected): the claim that no output artifact exists after a failed
read fails on the code.  `build_database` deletes the prior artifact and
creates the schema before ever opening the input (lines 50-68 precede line
72), so after a read error an artifact containing the schema and index but
no records sits at the output path. -/
theorem build_unreadable_input_artifact_counterexample :
    (build_database ReadResult.readError
        (some [{ id := 1, hangul := "가", hanja := "暇", meaning := "leisure",
                 frequency := 0 }])).1 = some [] ∧
    ¬ (build_database ReadResult.readError
        (some [{ id := 1, hangul := "가", hanja := "暇", meaning := "leisure",
                 frequency := 0 }])).1 = none := by
  refine ⟨rfl, by decide⟩

/-- C3 (amended): if the input source cannot be read, the build aborts with
an error (no count is reported); the previously existing artifact has been
deleted, and what remains at the output path is a freshly created artifact
holding the schema and index but no records. -/
theorem build_unreadable_input_aborts (pre : Option (List HanjaRecord)) :
    build_database ReadResult.readError pre = (some [], none) := rfl

/-- C4 (confirmed): replace semantics.  Whatever artifact was present
before (any `pre` with any records), after a successful build the artifact
holds exactly the records built from the input — one per accepted entry —
independent of the prior contents. -/
theorem build_replace_semantics (pre : List HanjaRecord) (lines : List String) :
    (build_database (ReadResult.ok lines) (some pre)).1 = some (buildRecords lines) ∧
    (buildRecords lines).length = (acceptedEntries lines).length :=
  ⟨rfl, insertLoop_length 0 (acceptedEntries lines)⟩

/-- C5 (confirmed): end-to-end scenario.  Building from the five-line
sample input produces exactly the three records of the claim in input order
(ids 1, 2, 3, frequency 0), and hangul lookup returns 2 records for 가,
1 for 나 and 0 for 다. -/
theorem build_e2e_scenario :
    buildRecords ["가:family:false reading example", "# comment line",
        "가:暇:leisure", "malformed line without colons", "나:那:that"] =
      [{ id := 1, hangul := "가", hanja := "family",
         meaning := "false reading example", frequency := 0 },
       { id := 2, hangul := "가", hanja := "暇", meaning := "leisure", frequency := 0 },
       { id := 3, hangul := "나", hanja := "那", meaning := "that", frequency := 0 }] ∧
    (lookupHangul (buildRecords ["가:family:false reading example", "# comment line",
        "가:暇:leisure", "malformed line without colons", "나:那:that"]) "가").length = 2 ∧
    (lookupHangul (buildRecords ["가:family:false reading example", "# comment line",
        "가:暇:leisure", "malformed line without colons", "나:那:that"]) "나").length = 1 ∧
    (lookupHangul (buildRecords ["가:family:false reading example", "# comment line",
        "가:暇:leisure", "malformed line without colons", "나:那:that"]) "다").length = 0 := by
  refine ⟨by decide, by decide, by decide, by decide⟩

/-- C6 (confirmed): idempotent rebuild.  Running the build a second time on
the same input, over the artifact left by the first run, reproduces the
first run exactly: the same record list (same tuples, same insertion order,
even the same ids) and the same reported count. -/
theorem build_rebuild_idempotent (lines : List String) (pre : Option (List HanjaRecord)) :
    build_database (ReadResult.ok lines)
        ((build_database (ReadResult.ok lines) pre).1) =
      build_database (ReadResult.ok lines) pre := rfl

/-- C7 (confirmed): every record persisted by the build has frequency 0;
the frequency is the fixed literal of the insert statement, never computed
from the input. -/
theorem build_frequency_zero (lines : List String) (r : HanjaRecord)
    (h : r ∈ buildRecords lines) : r.frequency = 0 :=
  (mem_buildRecords h).1

/-- Witness for C7 on a one-line input. -/
theorem build_frequency_zero_witness :
    ({ id := 1, hangul := "가", hanja := "暇", meaning := "x", frequency := 0 }
        : HanjaRecord) ∈ buildRecords ["가:暇:x"] ∧
    ({ id := 1, hangul := "가", hanja := "暇", meaning := "x", frequency := 0 }
        : HanjaRecord).frequency = 0 :=
  ⟨by decide, build_frequency_zero ["가:暇:x"] _ (by decide)⟩

/-- C8 (confirmed): on a line whose stripped text splits into four or more
colon-delimited fields, a successful parse is fully determined by fields 0,
1 and 2 — the meaning is the stripped field 2 and every later field is
ignored (so a colon inside the intended meaning truncates it). -/
theorem parse_ignores_extra_fields (line : String) (e : String × String × String)
    (_h4 : 4 ≤ (lineFields line).length)
    (hp : parse_hanja_line line = some e) :
    e = (pyStrip ⟨(lineFields line).getD 0 []⟩,
         pyStrip ⟨(lineFields line).getD 1 []⟩,
         pyStrip ⟨(lineFields line).getD 2 []⟩) := by
  obtain ⟨h, j, m⟩ := e
  obtain ⟨hlen, eh, ej, em, hne1, hne2⟩ := parse_some_shape hp
  rw [pyStrip_mk, pyStrip_mk, pyStrip_mk, Prod.mk.injEq, Prod.mk.injEq]
  exact ⟨eh, ej, em⟩

/-- Witness for C8 at the concrete line `"가:暇:mean:extra"`. -/
theorem parse_ignores_extra_fields_witness :
    4 ≤ (lineFields "가:暇:mean:extra").length ∧
    parse_hanja_line "가:暇:mean:extra" = some ("가", "暇", "mean") ∧
    ("가", "暇", "mean") =
      (pyStrip ⟨(lineFields "가:暇:mean:extra").getD 0 []⟩,
       pyStrip ⟨(lineFields "가:暇:mean:extra").getD 1 []⟩,
       pyStrip ⟨(lineFields "가:暇:mean:extra").getD 2 []⟩) :=
  ⟨by decide, by decide,
    parse_ignores_extra_fields "가:暇:mean:extra" ("가", "暇", "mean")
      (by decide) (by decide)⟩

/-- C9 (confirmed): whenever the parser returns an entry, all three fields
are colon-free and carry no leading or trailing whitespace (stripping them
again changes nothing), and hangul and hanja are nonempty; consequently
every record persisted by the build satisfies the same invariant. -/
theorem parse_and_build_fields_clean :
    (∀ line h j m : String, parse_hanja_line line = some (h, j, m) →
      (':' ∉ h.data ∧ pyStrip h = h ∧ ¬ h = "") ∧
      (':' ∉ j.data ∧ pyStrip j = j ∧ ¬ j = "") ∧
      (':' ∉ m.data ∧ pyStrip m = m)) ∧
    (∀ (lines : List String) (r : HanjaRecord), r ∈ buildRecords lines →
      (':' ∉ r.hangul.data ∧ pyStrip r.hangul = r.hangul ∧ ¬ r.hangul = "") ∧
      (':' ∉ r.hanja.data ∧ pyStrip r.hanja = r.hanja ∧ ¬ r.hanja = "") ∧
      (':' ∉ r.meaning.data ∧ pyStrip r.meaning = r.meaning)) := by
  constructor
  · intro line h j m hp
    exact parse_some_clean hp
  · intro lines r hr
    obtain ⟨_, line, _, hparse⟩ := mem_buildRecords hr
    exact parse_some_clean hparse

/-- Witness for C9 at the parsed line `"가:暇:x"` and the corresponding
one-line build. -/
theorem parse_and_build_fields_clean_witness :
    (parse_hanja_line "가:暇:x" = some ("가", "暇", "x") ∧
      ((':' ∉ ("가" : String).data ∧ pyStrip "가" = "가" ∧ ¬ ("가" : String) = "") ∧
       (':' ∉ ("暇" : String).data ∧ pyStrip "暇" = "暇" ∧ ¬ ("暇" : String) = "") ∧
       (':' ∉ ("x" : String).data ∧ pyStrip "x" = "x"))) ∧
    (({ id := 1, hangul := "가", hanja := "暇", meaning := "x", frequency := 0 }
        : HanjaRecord) ∈ buildRecords ["가:暇:x"] ∧
      ((':' ∉ ("가" : String).data ∧ pyStrip "가" = "가" ∧ ¬ ("가" : String) = "") ∧
       (':' ∉ ("暇" : String).data ∧ pyStrip "暇" = "暇" ∧ ¬ ("暇" : String) = "") ∧
       (':' ∉ ("x" : String).data ∧ pyStrip "x" = "x"))) :=
  ⟨⟨by decide, parse_and_build_fields_clean.1 "가:暇:x" "가" "暇" "x" (by decide)⟩,
   ⟨by decide, parse_and_build_fields_clean.2 ["가:暇:x"]
      { id := 1, hangul := "가", hanja := "暇", meaning := "x", frequency := 0 }
      (by decide)⟩⟩

/-- C10 (corrected): the claim as stated fails on comment lines.  The input
`"#a:b:"` has exactly three colon-delimited fields with empty third field
and nonempty trimmed first and second fields, yet `parse_hanja_line`
rejects it because the stripped line starts with `#` — so empty hangul or
hanja is not the only cause of rejection. -/
theorem parse_empty_meaning_comment_counterexample :
    (lineFields "#a:b:").length = 3 ∧
    pyStrip "#a" = "#a" ∧ ¬ ("#a" : String) = "" ∧ ¬ ("b" : String) = "" ∧
    parse_hanja_line "#a:b:" = none ∧
    ¬ parse_hanja_line "#a:b:" = some ("#a", "b", "") := by
  refine ⟨by decide, rfl, by decide, by decide, by decide, by decide⟩

/-- C10 (amended): a line with exactly three colon-delimited fields whose
third field is empty or whitespace-only, with nonempty trimmed hangul and
hanja fields, is accepted with meaning equal to the empty string — provided
the line is not a comment, i.e. the trimmed first field does not start
with `#`. -/
theorem parse_empty_meaning_accepted (a b w : String)
    (ha : ':' ∉ a.data) (hb : ':' ∉ b.data) (hw : ':' ∉ w.data)
    (ha2 : ¬ pyStrip a = "") (hb2 : ¬ pyStrip b = "")
    (hw2 : pyStrip w = "")
    (hcm : ¬ (pyStrip a).data.head? = some '#') :
    parse_hanja_line (a ++ ":" ++ b ++ ":" ++ w) =
      some (pyStrip a, pyStrip b, "") := by
  rw [← hw2]
  exact parse_concat_valid a b w ha hb hw ha2 hb2 hcm

/-- Witness for C10 at the concrete line `"a:b:   "`. -/
theorem parse_empty_meaning_accepted_witness :
    (':' ∉ ("a" : String).data) ∧ (':' ∉ ("b" : String).data) ∧
    (':' ∉ ("   " : String).data) ∧
    ¬ pyStrip "a" = "" ∧ ¬ pyStrip "b" = "" ∧ pyStrip "   " = "" ∧
    ¬ (pyStrip "a").data.head? = some '#' ∧
    parse_hanja_line ("a" ++ ":" ++ "b" ++ ":" ++ "   ") =
      some (pyStrip "a", pyStrip "b", "") :=
  ⟨by decide, by decide, by decide, by decide, by decide, by decide, by decide,
    parse_empty_meaning_accepted "a" "b" "   " (by decide) (by decide)
      (by decide) (by decide) (by decide) (by decide) (by decide)⟩
